import Mathlib

/-!
The query protocol of the p0f client (goP0f).

A shallow embedding of `P0f.go`: the request built by `newRequest`, its
encoding by `binary.Write`, the decoding of the fixed 232-byte reply by
`binary.Read`, and the exchange and status switch of `GetIPInfo`.

Conventions.
* A byte is a `Fin 256`; a Go `[]byte`, `[n]byte` or `string` is a `List Byte`.
* Go's signed integers are `Int`; a value read from the wire goes through
  `toSigned w`, the conversion `intW(uintW)` of Go.
* A Go result `(*T, error)` is a pair of options, `none` for `nil`.
* A function that can stop with a run-time panic (an index out of range)
  returns an `Option`, `none` for the panic.
* The connection is explicit state: what the transport answers to a write,
  the bytes the peer delivers before the stream ends, and the log of the
  operations performed so far.
-/

namespace P0f

/-! ## Bytes and machine integers -/

/-- One byte of the wire. -/
abbrev Byte := Fin 256

/-- Unsigned value of a little-endian byte string, as read by
`binary.LittleEndian.Uint16` and `Uint32`. -/
def leNat : List Byte → Nat
  | [] => 0
  | b :: bs => b.val + 256 * leNat bs

/-- The Go conversion of an unsigned `w`-bit pattern to the signed type of the
same width (`int16(x)`, `int32(x)`, `int8(x)`). -/
def toSigned (w : Nat) (u : Nat) : Int :=
  if u % 2 ^ w < 2 ^ (w - 1) then ((u % 2 ^ w : Nat) : Int)
  else ((u % 2 ^ w : Nat) : Int) - (2 : Int) ^ w

/-- The Go conversion of a signed integer to the unsigned `w`-bit pattern
(`uint32(x)`, `uint8(x)`). -/
def toUnsigned (w : Nat) (v : Int) : Nat :=
  (v % (2 : Int) ^ w).toNat

/-- The `n` little-endian bytes of an unsigned value, as stored by
`binary.LittleEndian.PutUint32`. -/
def leBytes : Nat → Nat → List Byte
  | 0, _ => []
  | n + 1, u => Fin.ofNat (u % 256) :: leBytes n (u / 256)

/-- The bytes `buf[off : off+n]`. -/
def field (buf : List Byte) (off n : Nat) : List Byte :=
  (buf.drop off).take n

/-! ## Errors and time -/

/-- The error values `GetIPInfo` and `GetAddrInfo` can return. -/
inductive GoError where
  /-- An error made by `fmt.Errorf`, identified by its message. -/
  | errorf (msg : String)
  /-- The value `io.EOF`. -/
  | EOF
  /-- The value `io.ErrUnexpectedEOF`. -/
  | ErrUnexpectedEOF
  /-- An error reported by the transport on a write. -/
  | transport (msg : String)
  deriving DecidableEq, Repr

/-- A `time.Time`, as the seconds and nanoseconds since the UNIX epoch. -/
structure Time where
  sec : Int
  nsec : Int
  deriving DecidableEq, Repr

/-- The function `time.Unix(sec, nsec)`, used with `nsec = 0` only. -/
def Time.Unix (sec nsec : Int) : Time :=
  { sec := sec + nsec / 1000000000, nsec := nsec % 1000000000 }

/-! ## Constants -/

/-- The magic dword of a request. -/
def magicQuery : Int := 0x50304601

/-- The magic dword of a response. -/
def magicResponse : Int := 0x50304602

/-- Status `BadQuery`. -/
def BadQuery : Int := 0

/-- Status `OK`. -/
def OK : Int := 0x10

/-- Status `NoMatch`. -/
def NoMatch : Int := 0x20

/-- Address type `IPv4`. -/
def IPv4 : Int := 4

/-- Address type `IPv6`. -/
def IPv6 : Int := 6

/-! ## Wire structures -/

/-- The struct `response`: the reply as laid out on the wire. -/
structure response where
  MagicWord : Int
  Status : Int
  FirstSeen : Int
  LastSeen : Int
  TotalConn : Int
  UptimeMin : Int
  UpModDays : Int
  LastNAT : Int
  LastChg : Int
  Distance : Int
  BadSw : Int
  OsMatchQuality : Int
  OsName : List Byte
  OsFlavor : List Byte
  HttpName : List Byte
  HttpFlavor : List Byte
  LinkType : List Byte
  Language : List Byte
  deriving DecidableEq, Repr

/-- The zero value of `response`, the state of `var resp response`. -/
def response.zero : response :=
  { MagicWord := 0, Status := 0, FirstSeen := 0, LastSeen := 0, TotalConn := 0,
    UptimeMin := 0, UpModDays := 0, LastNAT := 0, LastChg := 0, Distance := 0,
    BadSw := 0, OsMatchQuality := 0,
    OsName := List.replicate 32 0, OsFlavor := List.replicate 32 0,
    HttpName := List.replicate 32 0, HttpFlavor := List.replicate 32 0,
    LinkType := List.replicate 32 0, Language := List.replicate 32 0 }

/-- The struct `Response`: the decoded reply given to the caller. -/
structure Response where
  FirstSeen : Time
  LastSeen : Time
  TotalConn : Int
  UptimeMin : Int
  UpModDays : Int
  LastNAT : Time
  LastChg : Time
  Distance : Int
  BadSw : Int
  OsMatchQuality : Int
  OsName : List Byte
  OsFlavor : List Byte
  HttpName : List Byte
  HttpFlavor : List Byte
  LinkType : List Byte
  Language : List Byte
  deriving DecidableEq, Repr

/-- The struct `request`. -/
structure request where
  MagicWord : Int
  AddressType : Int
  Address : List Byte
  deriving DecidableEq, Repr

/-! ## Addresses (`net.IP`) -/

/-- A `net.IP`: a byte slice. -/
abbrev IP := List Byte

/-- The loop `isZeros` of package `net`. -/
def isZeros (p : List Byte) : Bool :=
  p.all (fun b => b == 0)

/-- The method `net.IP.To4`: the 4-byte form of an address, `none` for `nil`. -/
def To4 (ip : IP) : Option IP :=
  if ip.length = 4 then some ip
  else if ip.length = 16 ∧ isZeros (ip.take 10) = true ∧
      ip[10]? = some 0xff ∧ ip[11]? = some 0xff then some ((ip.drop 12).take 4)
  else none

/-- The builtin `copy(dst, src)` on byte slices: the contents of `dst` after
the copy of `min(len(dst), len(src))` bytes. -/
def copy (dst src : List Byte) : List Byte :=
  src.take (min dst.length src.length) ++ dst.drop (min dst.length src.length)

/-- The assignment `a[i] = b` on an array; `none` is the index-out-of-range
panic. -/
def setIndex (a : List Byte) (i : Nat) (b : Byte) : Option (List Byte) :=
  if i < a.length then some (a.set i b) else none

/-- The loop `for index, b := range src { a[index] = b }`, entered with the
index at `i`. -/
def rangeStore (a : List Byte) (i : Nat) : List Byte → Option (List Byte)
  | [] => some a
  | b :: bs =>
    match setIndex a i b with
    | none => none
    | some a1 => rangeStore a1 (i + 1) bs

/-- The function `newRequest`. -/
def newRequest (ip : IP) : Option (request × Option GoError) :=
  let req : request :=
    { MagicWord := magicQuery, AddressType := 0, Address := List.replicate 16 0 }
  match To4 ip with
  | none =>
    some ({ req with AddressType := IPv6, Address := copy req.Address ip }, none)
  | some tmp =>
    match rangeStore req.Address 0 tmp with
    | none => none
    | some a => some ({ req with AddressType := IPv4, Address := a }, none)

/-! ## Encoding and decoding (`encoding/binary`) -/

/-- The bytes `binary.Write` produces for a `request` in little-endian order:
the fields in declaration order, without padding. -/
def encodeRequest (req : request) : List Byte :=
  leBytes 4 (toUnsigned 32 req.MagicWord) ++
    leBytes 1 (toUnsigned 8 req.AddressType) ++ req.Address

/-- The size `binary.Read` computes for a `response`. -/
def responseSize : Nat := 9 * 4 + 2 + 1 + 1 + 6 * 32

/-- The value `binary.Read` stores in a `response` from a full buffer, in
little-endian order: the fields in declaration order, without padding. -/
def decodeResponse (buf : List Byte) : response :=
  { MagicWord := toSigned 32 (leNat (field buf 0 4)),
    Status := toSigned 32 (leNat (field buf 4 4)),
    FirstSeen := toSigned 32 (leNat (field buf 8 4)),
    LastSeen := toSigned 32 (leNat (field buf 12 4)),
    TotalConn := toSigned 32 (leNat (field buf 16 4)),
    UptimeMin := toSigned 32 (leNat (field buf 20 4)),
    UpModDays := toSigned 32 (leNat (field buf 24 4)),
    LastNAT := toSigned 32 (leNat (field buf 28 4)),
    LastChg := toSigned 32 (leNat (field buf 32 4)),
    Distance := toSigned 16 (leNat (field buf 36 2)),
    BadSw := toSigned 8 (leNat (field buf 38 1)),
    OsMatchQuality := toSigned 8 (leNat (field buf 39 1)),
    OsName := field buf 40 32,
    OsFlavor := field buf 72 32,
    HttpName := field buf 104 32,
    HttpFlavor := field buf 136 32,
    LinkType := field buf 168 32,
    Language := field buf 200 32 }

/-! ## The connection -/

/-- An operation performed on the connection. -/
inductive Op where
  | write (bs : List Byte)
  | read (n : Nat)
  deriving DecidableEq, Repr

/-- The connection `p.conn` as seen by one exchange. -/
structure Conn where
  /-- The error the transport answers to a write, `none` for success. -/
  writeErr : Option GoError
  /-- The bytes the peer delivers before the stream ends. -/
  incoming : List Byte
  /-- The operations performed so far, oldest first. -/
  log : List Op
  deriving DecidableEq, Repr

/-- The call `binary.Write(p.conn, binary.LittleEndian, req)`: one write of the
encoded request. -/
def binaryWrite (p : Conn) (req : request) : Option GoError × Conn :=
  (p.writeErr, { p with log := p.log ++ [Op.write (encodeRequest req)] })

/-- The call `io.ReadFull(p.conn, buf)` with `len(buf) = n`: the bytes read and
the error. -/
def ReadFull (p : Conn) (n : Nat) : (List Byte × Option GoError) × Conn :=
  if n ≤ p.incoming.length then
    ((p.incoming.take n, none),
      { p with incoming := p.incoming.drop n, log := p.log ++ [Op.read n] })
  else if p.incoming.length = 0 then
    (([], some GoError.EOF), { p with log := p.log ++ [Op.read n] })
  else
    ((p.incoming, some GoError.ErrUnexpectedEOF),
      { p with incoming := [], log := p.log ++ [Op.read n] })

/-- The call `binary.Read(p.conn, binary.LittleEndian, &resp)`: on a failed
read `resp` is left as it was. -/
def binaryRead (p : Conn) (resp : response) : (response × Option GoError) × Conn :=
  match ReadFull p responseSize with
  | ((_, some err), p1) => ((resp, some err), p1)
  | ((buf, none), p1) => ((decodeResponse buf, none), p1)

/-! ## The exchange -/

/-- The `Response` built in the `OK` case of `GetIPInfo`. -/
def okResponse (resp : response) : Response :=
  { FirstSeen := Time.Unix resp.FirstSeen 0,
    LastSeen := Time.Unix resp.LastSeen 0,
    TotalConn := resp.TotalConn,
    UptimeMin := resp.UptimeMin,
    UpModDays := resp.UpModDays,
    LastNAT := Time.Unix resp.LastNAT 0,
    LastChg := Time.Unix resp.LastChg 0,
    Distance := resp.Distance,
    BadSw := resp.BadSw,
    OsMatchQuality := resp.OsMatchQuality,
    OsName := resp.OsName,
    OsFlavor := resp.OsFlavor,
    HttpName := resp.HttpName,
    HttpFlavor := resp.HttpFlavor,
    LinkType := resp.LinkType,
    Language := resp.Language }

/-- The `switch resp.Status` that ends `GetIPInfo`, with the `return` that
follows it. -/
def statusSwitch (resp : response) : Option Response × Option GoError :=
  if resp.Status = BadQuery then
    (none, some (GoError.errorf "Bad query"))
  else if resp.Status = OK then
    (some (okResponse resp), none)
  else if resp.Status = NoMatch then
    (none, some (GoError.errorf "No match"))
  else
    (none, some (GoError.errorf "Unrecognized response"))

/-- The method `GetIPInfo`: the returned pair and the connection afterwards;
`none` is a run-time panic. The error of `binary.Read` is assigned and not
looked at. -/
def GetIPInfo (p : Conn) (ip : IP) :
    Option ((Option Response × Option GoError) × Conn) :=
  match newRequest ip with
  | none => none
  | some (_, some err) => some ((none, some err), p)
  | some (req, none) =>
    match binaryWrite p req with
    | (some err, p1) => some ((none, some err), p1)
    | (none, p1) =>
      match binaryRead p1 response.zero with
      | ((resp, _), p2) => some (statusSwitch resp, p2)

/-- The method `GetAddrInfo`. The parser `net.ParseIP` of the standard library
is a parameter: `none` is its `nil` result. -/
def GetAddrInfo (ParseIP : String → Option IP) (p : Conn) (sip : String) :
    Option ((Option Response × Option GoError) × Conn) :=
  match ParseIP sip with
  | none =>
    some ((none,
      some (GoError.errorf ("Couldn't parse " ++ sip ++ " as an IP address"))), p)
  | some ip => GetIPInfo p ip

/-! ## The stringers (`manual_stringer.go`) -/

/-- The rendering of an integer by the verb `%d`. -/
def formatInt (n : Int) : String :=
  toString n

/-- The slice expression `s[lo:hi]` on a string of one-byte characters; `none`
is the out-of-range panic. -/
def sliceString (s : String) (lo hi : Nat) : Option String :=
  if lo ≤ hi ∧ hi ≤ s.length then some (String.mk ((s.toList.drop lo).take (hi - lo)))
  else none

/-- The constant `_AddressType_name`. -/
def _AddressType_name : String := "IPv4IPv6"

/-- The table `_AddressType_index`. -/
def _AddressType_index : List Nat := [0, 4, 8]

/-- The method `addressType.String`, on the value of an `int8`; `none` is the
out-of-range panic. -/
def addressType_String (ii : Int) : Option String :=
  let i : Int := if ii = 4 then 0 else if ii = 6 then 1 else ii
  if i < 0 ∨ i ≥ (_AddressType_index.length : Int) - 1 then
    some ("AddressType(" ++ formatInt ii ++ ")")
  else
    match _AddressType_index[i.toNat]?, _AddressType_index[i.toNat + 1]? with
    | some lo, some hi => sliceString _AddressType_name lo hi
    | _, _ => none

/-- The constant `_ResponseStatusType_name`. -/
def _ResponseStatusType_name : String := "BadQueryOKNoMatch"

/-- The table `_ResponseStatusType_index`. -/
def _ResponseStatusType_index : List Nat := [0, 8, 10, 17]

/-- The method `responseStatusType.String`, on the value of an `int32`; `none`
is the out-of-range panic. -/
def responseStatusType_String (ii : Int) : Option String :=
  let i : Int := if ii = 0x00 then 0 else if ii = 0x10 then 1 else if ii = 0x20 then 2 else ii
  if i < 0 ∨ i ≥ (_ResponseStatusType_index.length : Int) - 1 then
    some ("ResponseStatusType(" ++ formatInt ii ++ ")")
  else
    match _ResponseStatusType_index[i.toNat]?, _ResponseStatusType_index[i.toNat + 1]? with
    | some lo, some hi => sliceString _ResponseStatusType_name lo hi
    | _, _ => none

/-! ## Reference definitions and sample inputs -/

/-- The text of a C-style buffer in the words of the specification: the bytes
before the first zero byte, or all of them when there is none. -/
def untilZero (buf : List Byte) : List Byte :=
  buf.takeWhile (fun b => b != 0)

/-- The six decoded texts of a `Response`, in declaration order. -/
def Response.texts (r : Response) : List (List Byte) :=
  [r.OsName, r.OsFlavor, r.HttpName, r.HttpFlavor, r.LinkType, r.Language]

/-- The six 32-byte text buffers of a record, in wire order. -/
def textBuffers (rec : List Byte) : List (List Byte) :=
  [40, 72, 104, 136, 168, 200].map (fun off => field rec off 32)

/-- A connection on which the write succeeds and the peer delivers `bs`. -/
def peer (bs : List Byte) : Conn :=
  { writeErr := none, incoming := bs, log := [] }

/-- A 232-byte record with the right magic, the given status and distance
bytes, and zero everywhere else. -/
def sampleRecord (status dist : List Byte) : List Byte :=
  [0x02, 0x46, 0x30, 0x50] ++ status ++ List.replicate 28 0 ++ dist ++
    List.replicate 194 0

/-- A record with status `OK` whose `os_name` buffer is "Linux" followed by 27
zero bytes. -/
def linuxRecord : List Byte :=
  [0x02, 0x46, 0x30, 0x50, 0x10, 0, 0, 0] ++ List.replicate 32 0 ++
    [76, 105, 110, 117, 120] ++ List.replicate 27 0 ++ List.replicate 160 0

/-- A record with status `OK` whose magic is `0x50304601`, the magic of a
request. -/
def wrongMagicRecord : List Byte :=
  [0x01, 0x46, 0x30, 0x50, 0x10, 0, 0, 0] ++ List.replicate 224 0

/-- The IPv4-mapped IPv6 address `::ffff:1.2.3.4`, a 16-byte value. -/
def mappedAddress : IP :=
  [0, 0, 0, 0, 0, 0, 0, 0, 0, 0, 0xff, 0xff, 1, 2, 3, 4]

/-- The IPv6 address `2001:db8::1`. -/
def sampleIPv6 : IP :=
  [0x20, 0x01, 0x0d, 0xb8, 0, 0, 0, 0, 0, 0, 0, 0, 0, 0, 0, 1]

/-- The first 12 bytes of an IPv4-mapped IPv6 address. -/
def v4InV6Prefix : List Byte :=
  [0, 0, 0, 0, 0, 0, 0, 0, 0, 0, 0xff, 0xff]

/-- A record with the right magic and status `OK` whose bytes from offset 8 on
are `body`, zero-filled to 232 bytes. -/
def okRecord (body : List Byte) : List Byte :=
  [0x02, 0x46, 0x30, 0x50, 0x10, 0, 0, 0] ++ body.take 224 ++
    List.replicate (224 - body.length) 0

/-- The four decoded timestamps of a `Response`: `FirstSeen`, `LastSeen`,
`LastNAT`, `LastChg`. -/
def Response.timestamps (r : Response) : List Time :=
  [r.FirstSeen, r.LastSeen, r.LastNAT, r.LastChg]

/-- The unsigned little-endian values of the wire fields `first_seen`,
`last_seen`, `last_nat`, `last_chg` of a record. -/
def timestampFields (rec : List Byte) : List Nat :=
  [8, 12, 28, 32].map (fun off => leNat (field rec off 4))

/-- The three decoded counters of a `Response`: `TotalConn`, `UptimeMin`,
`UpModDays`. -/
def Response.counters (r : Response) : List Int :=
  [r.TotalConn, r.UptimeMin, r.UpModDays]

/-- The unsigned little-endian values of the wire fields `total_conn`,
`uptime_min`, `up_mod_days` of a record. -/
def counterFields (rec : List Byte) : List Nat :=
  [16, 20, 24].map (fun off => leNat (field rec off 4))

/-- The two's-complement reading of an unsigned 32-bit value, written out. -/
def signed32 (n : Nat) : Int :=
  if n < 2147483648 then (n : Int) else (n : Int) - 4294967296

/-- The two's-complement reading of a byte, written out. -/
def signed8 (b : Byte) : Int :=
  if b.val < 128 then (b.val : Int) else (b.val : Int) - 256

/-- The test-only inverse of the request encoding in the words of the
specification: the family tag read from byte 4 and the address buffer read
from bytes 5..20. -/
def decodeRequest (bs : List Byte) : Int × List Byte :=
  (toSigned 8 (leNat (field bs 4 1)), field bs 5 16)

/-- A stand-in for `net.ParseIP` that accepts the text "192.168.1.1" only and
returns its 16-byte form. -/
def sampleParseIP (sip : String) : Option IP :=
  if sip = "192.168.1.1" then
    some [0, 0, 0, 0, 0, 0, 0, 0, 0, 0, 0xff, 0xff, 192, 168, 1, 1]
  else none

/-- A record with status `OK` whose `total_conn` bytes are FF FF FF FF. -/
def fullCountRecord : List Byte :=
  okRecord [0, 0, 0, 0, 0, 0, 0, 0, 0xff, 0xff, 0xff, 0xff]

/-- A record with status `OK` whose `bad_sw` byte is 200 and whose
`os_match_quality` byte is 255. -/
def signedCodesRecord : List Byte :=
  [0x02, 0x46, 0x30, 0x50, 0x10, 0, 0, 0] ++ List.replicate 30 0 ++ [200, 255] ++
    List.replicate 192 0

/-! ## Auxiliary facts -/

theorem To4_length (ip tmp : IP) (h : To4 ip = some tmp) : tmp.length = 4 := by
  unfold To4 at h
  split_ifs at h with h4 h16
  · cases h; exact h4
  · cases h
    simp [List.length_take, List.length_drop, h16.1]

theorem rangeStore_four (a b c d : Byte) :
    rangeStore (List.replicate 16 0) 0 [a, b, c, d] =
      some ([a, b, c, d] ++ List.replicate 12 0) := by
  rfl

theorem list_of_length_four (l : List Byte) (h : l.length = 4) :
    ∃ a b c d, l = [a, b, c, d] := by
  match l, h with
  | [a, b, c, d], _ => exact ⟨a, b, c, d, rfl⟩

theorem newRequest_of_To4 (ip tmp : IP) (h : To4 ip = some tmp) :
    newRequest ip =
      some ({ MagicWord := magicQuery, AddressType := IPv4,
              Address := tmp ++ List.replicate 12 0 }, none) := by
  obtain ⟨a, b, c, d, rfl⟩ := list_of_length_four tmp (To4_length ip tmp h)
  simp only [newRequest, h, rangeStore_four]

theorem newRequest_of_not_To4 (ip : IP) (h : To4 ip = none) :
    newRequest ip =
      some ({ MagicWord := magicQuery, AddressType := IPv6,
              Address := copy (List.replicate 16 0) ip }, none) := by
  simp only [newRequest, h]

theorem newRequest_total (ip : IP) : ∃ req, newRequest ip = some (req, none) := by
  cases h : To4 ip with
  | none => exact ⟨_, newRequest_of_not_To4 ip h⟩
  | some tmp => exact ⟨_, newRequest_of_To4 ip tmp h⟩

theorem copy_length (dst src : List Byte) : (copy dst src).length = dst.length := by
  simp only [copy, List.length_append, List.length_take, List.length_drop]
  omega

theorem newRequest_shape (ip : IP) (req : request) (h : newRequest ip = some (req, none)) :
    req.MagicWord = magicQuery ∧ (req.AddressType = 4 ∨ req.AddressType = 6) ∧
      req.Address.length = 16 := by
  cases h4 : To4 ip with
  | none =>
    rw [newRequest_of_not_To4 ip h4] at h
    cases h
    exact ⟨rfl, Or.inr rfl, by simp [copy_length]⟩
  | some tmp =>
    rw [newRequest_of_To4 ip tmp h4] at h
    cases h
    exact ⟨rfl, Or.inl rfl, by simp [To4_length ip tmp h4]⟩

theorem leNat_lt (l : List Byte) : leNat l < 256 ^ l.length := by
  induction l with
  | nil => simp [leNat]
  | cons b bs ih =>
    have hb := b.isLt
    simp only [leNat, List.length_cons, pow_succ]
    omega

theorem field_length_le (buf : List Byte) (off n : Nat) : (field buf off n).length ≤ n := by
  unfold field
  exact List.length_take_le n _

theorem leNat_field_lt (buf : List Byte) (off n : Nat) :
    leNat (field buf off n) < 256 ^ n :=
  lt_of_lt_of_le (leNat_lt _) (Nat.pow_le_pow_right (by decide) (field_length_le buf off n))

theorem toSigned32_eq_iff (u a : Nat) (hu : u < 256 ^ 4) (ha : a < 2 ^ 31) :
    toSigned 32 u = (a : Int) ↔ u = a := by
  unfold toSigned
  norm_num at hu ha ⊢
  rw [Nat.mod_eq_of_lt hu]
  split_ifs with h <;> omega

theorem ReadFull_record (p : Conn) (rec rest : List Byte)
    (hin : p.incoming = rec ++ rest) (hlen : rec.length = 232) :
    ReadFull p responseSize =
      ((rec, none), { p with incoming := rest, log := p.log ++ [Op.read 232] }) := by
  have h1 : responseSize ≤ p.incoming.length := by
    simp [hin, hlen, responseSize]
  have h2 : (rec ++ rest).take 232 = rec := by
    rw [← hlen]; exact List.take_left' rfl
  have h3 : (rec ++ rest).drop 232 = rest := by
    rw [← hlen]; exact List.drop_left' rfl
  unfold ReadFull
  rw [if_pos h1]
  simp only [hin, responseSize] at *
  norm_num
  exact ⟨h2, h3⟩

theorem GetIPInfo_record (p : Conn) (ip : IP) (rec rest : List Byte)
    (hw : p.writeErr = none) (hin : p.incoming = rec ++ rest) (hlen : rec.length = 232) :
    ∃ req, newRequest ip = some (req, none) ∧
      GetIPInfo p ip = some (statusSwitch (decodeResponse rec),
        { writeErr := none, incoming := rest,
          log := p.log ++ [Op.write (encodeRequest req), Op.read 232] }) := by
  obtain ⟨req, hreq⟩ := newRequest_total ip
  refine ⟨req, hreq, ?_⟩
  have hr := ReadFull_record
    { writeErr := none, incoming := p.incoming,
      log := p.log ++ [Op.write (encodeRequest req)] } rec rest hin hlen
  simp only [GetIPInfo, hreq, binaryWrite, hw, binaryRead, hr]
  simp

theorem GetIPInfo_short (p : Conn) (ip : IP)
    (hw : p.writeErr = none) (hshort : p.incoming.length < 232) :
    ∃ p', GetIPInfo p ip = some ((none, some (GoError.errorf "Bad query")), p') := by
  obtain ⟨req, hreq⟩ := newRequest_total ip
  have h1 : ¬ responseSize ≤ p.incoming.length := by
    simp [responseSize]; omega
  by_cases h0 : p.incoming.length = 0
  · refine ⟨{ writeErr := none, incoming := p.incoming,
              log := p.log ++ [Op.write (encodeRequest req)] ++ [Op.read responseSize] }, ?_⟩
    simp only [GetIPInfo, hreq, binaryWrite, hw, binaryRead, ReadFull, if_neg h1, if_pos h0]
    rfl
  · refine ⟨{ writeErr := none, incoming := [],
              log := p.log ++ [Op.write (encodeRequest req)] ++ [Op.read responseSize] }, ?_⟩
    simp only [GetIPInfo, hreq, binaryWrite, hw, binaryRead, ReadFull, if_neg h1, if_neg h0]
    rfl

theorem statusSwitch_of_status (resp : response) :
    (resp.Status = 0 → statusSwitch resp = (none, some (GoError.errorf "Bad query"))) ∧
    (resp.Status = 0x10 → statusSwitch resp = (some (okResponse resp), none)) ∧
    (resp.Status = 0x20 → statusSwitch resp = (none, some (GoError.errorf "No match"))) ∧
    (resp.Status ≠ 0 → resp.Status ≠ 0x10 → resp.Status ≠ 0x20 →
      statusSwitch resp = (none, some (GoError.errorf "Unrecognized response"))) := by
  refine ⟨?_, ?_, ?_, ?_⟩
  · intro h; simp [statusSwitch, h, BadQuery]
  · intro h; simp [statusSwitch, h, BadQuery, OK]
  · intro h; simp [statusSwitch, h, BadQuery, OK, NoMatch]
  · intro h0 h1 h2; simp [statusSwitch, h0, h1, h2, BadQuery, OK, NoMatch]

theorem status_of_bytes (rec : List Byte) (a : Nat) (ha : a < 2 ^ 31) :
    (decodeResponse rec).Status = (a : Int) ↔ leNat (field rec 4 4) = a :=
  toSigned32_eq_iff _ _ (leNat_field_lt rec 4 4) ha

theorem field_length (rec : List Byte) (off n : Nat) (h : off + n ≤ rec.length) :
    (field rec off n).length = n := by
  simp only [field, List.length_take, List.length_drop]
  omega

theorem untilZero_eq_self_iff (t : List Byte) : t = untilZero t ↔ (0 : Byte) ∉ t := by
  unfold untilZero
  rw [eq_comm, List.takeWhile_eq_self_iff]
  constructor
  · intro h h0
    simpa using h 0 h0
  · intro h x hx
    simp only [bne_iff_ne, ne_eq]
    rintro rfl
    exact h hx

theorem ReadFull_log (p : Conn) (n : Nat) : (ReadFull p n).2.log = p.log ++ [Op.read n] := by
  unfold ReadFull
  split_ifs <;> rfl

theorem To4_eq_none_of (ip : IP) (hlen : ip.length = 16) (hm : ip.take 12 ≠ v4InV6Prefix) :
    To4 ip = none := by
  match ip, hlen with
  | [a0, a1, a2, a3, a4, a5, a6, a7, a8, a9, a10, a11, a12, a13, a14, a15], _ =>
    simp only [To4, isZeros, v4InV6Prefix] at hm ⊢
    simp at hm ⊢
    tauto

theorem copy_sixteen (ip : IP) (hlen : ip.length = 16) :
    copy (List.replicate 16 0) ip = ip := by
  simp [copy, hlen]

theorem binaryRead_log (p : Conn) (resp : response) :
    (binaryRead p resp).2.log = p.log ++ [Op.read 232] := by
  have h := ReadFull_log p responseSize
  unfold binaryRead
  rcases hr : ReadFull p responseSize with ⟨⟨buf, _ | err⟩, p1⟩ <;>
    rw [hr] at h <;> exact h

theorem leBytes_one (t : Byte) : leBytes 1 (toUnsigned 8 (t.val : Int)) = [t] := by
  have h : (toUnsigned 8 (t.val : Int)) = t.val := by
    have := t.isLt
    unfold toUnsigned
    norm_num
    omega
  rw [h]
  simp only [leBytes, List.cons.injEq, and_true]
  apply Fin.ext
  simp [Fin.ofNat]

theorem encodeRequest_bytes (req : request) (tag : Byte)
    (hm : req.MagicWord = magicQuery) (ht : req.AddressType = (tag.val : Int)) :
    encodeRequest req = [0x01, 0x46, 0x30, 0x50, tag] ++ req.Address := by
  have h1 : leBytes 4 (toUnsigned 32 magicQuery) = [0x01, 0x46, 0x30, 0x50] := by decide
  simp only [encodeRequest, hm, ht, h1, leBytes_one]
  rfl

theorem GetIPInfo_of_request (p : Conn) (ip : IP) (req : request)
    (hreq : newRequest ip = some (req, none)) :
    GetIPInfo p ip =
      match p.writeErr with
      | some err =>
        some ((none, some err), { p with log := p.log ++ [Op.write (encodeRequest req)] })
      | none =>
        some (statusSwitch
          (binaryRead { p with log := p.log ++ [Op.write (encodeRequest req)] } response.zero).1.1,
          (binaryRead { p with log := p.log ++ [Op.write (encodeRequest req)] } response.zero).2) := by
  cases hw : p.writeErr <;> simp only [GetIPInfo, hreq, binaryWrite, hw]

theorem GetIPInfo_log (p : Conn) (ip : IP) (req : request)
    (hreq : newRequest ip = some (req, none)) :
    ∃ res p' tail, GetIPInfo p ip = some (res, p') ∧
      p'.log = p.log ++ Op.write (encodeRequest req) :: tail ∧
      ∀ op ∈ tail, op = Op.read 232 := by
  rw [GetIPInfo_of_request p ip req hreq]
  cases p.writeErr with
  | some err => exact ⟨_, _, [], rfl, rfl, by simp⟩
  | none => exact ⟨_, _, [Op.read 232], rfl, by simp [binaryRead_log], by simp⟩

theorem list_of_length_two (l : List Byte) (h : l.length = 2) : ∃ a b, l = [a, b] := by
  match l, h with
  | [a, b], _ => exact ⟨a, b, rfl⟩

theorem toSigned16_pair (b0 b1 : Byte) :
    toSigned 16 (leNat [b0, b1]) =
      (if b0.val + 256 * b1.val < 32768 then ((b0.val + 256 * b1.val : Nat) : Int)
       else ((b0.val + 256 * b1.val : Nat) : Int) - 65536) := by
  have h0 := b0.isLt
  have h1 := b1.isLt
  have hlt : b0.val + 256 * b1.val < 65536 := by omega
  have hp : (2 : Nat) ^ 16 = 65536 := by norm_num
  simp only [toSigned, leNat, Nat.mul_zero, Nat.add_zero, hp, Nat.mod_eq_of_lt hlt]
  norm_num

theorem GetIPInfo_ok (p : Conn) (ip : IP) (rec rest : List Byte)
    (hw : p.writeErr = none) (hin : p.incoming = rec ++ rest) (hlen : rec.length = 232)
    (hst : field rec 4 4 = [0x10, 0, 0, 0]) :
    ∃ p', GetIPInfo p ip = some ((some (okResponse (decodeResponse rec)), none), p') := by
  obtain ⟨req, -, h⟩ := GetIPInfo_record p ip rec rest hw hin hlen
  have hs : (decodeResponse rec).Status = 0x10 :=
    (status_of_bytes rec 0x10 (by decide)).2 (by rw [hst]; rfl)
  rw [(statusSwitch_of_status _).2.1 hs] at h
  exact ⟨_, h⟩

theorem toSigned32_eq_signed32 (n : Nat) (h : n < 256 ^ 4) : toSigned 32 n = signed32 n := by
  have hp : (2 : Nat) ^ 32 = 4294967296 := by norm_num
  have hn : n < 4294967296 := by norm_num at h; exact h
  simp only [toSigned, signed32, hp, Nat.mod_eq_of_lt hn]
  norm_num

theorem toSigned8_eq_signed8 (b : Byte) : toSigned 8 (leNat [b]) = signed8 b := by
  have hb := b.isLt
  have hp : (2 : Nat) ^ 8 = 256 := by norm_num
  simp only [toSigned, signed8, leNat, Nat.mul_zero, Nat.add_zero, hp, Nat.mod_eq_of_lt hb]
  norm_num

theorem Time_Unix_zero (s : Int) : Time.Unix s 0 = { sec := s, nsec := 0 } := by
  simp [Time.Unix]

theorem signed32_facts (n : Nat) (h : n < 4294967296) :
    (n < 2147483648 → signed32 n = (n : Int)) ∧
    (2147483648 ≤ n → signed32 n = (n : Int) - 4294967296) ∧
    (signed32 n < 0 ↔ 2147483648 ≤ n) ∧
    -2147483648 ≤ signed32 n ∧ signed32 n ≤ 2147483647 := by
  unfold signed32
  split_ifs with hlt
  · refine ⟨fun _ => rfl, fun hc => absurd hlt (by omega), ?_, ?_, ?_⟩ <;> omega
  · refine ⟨fun hc => absurd hc hlt, fun _ => rfl, ?_, ?_, ?_⟩ <;> omega

theorem list_of_length_one (l : List Byte) (h : l.length = 1) : ∃ a, l = [a] := by
  match l, h with
  | [a], _ => exact ⟨a, rfl⟩

theorem statusSwitch_exactly_one (resp : response) :
    (statusSwitch resp).1 = none ↔ (statusSwitch resp).2 ≠ none := by
  unfold statusSwitch
  split_ifs <;> simp

theorem GetIPInfo_exactly_one (p : Conn) (ip : IP) :
    ∃ res p', GetIPInfo p ip = some (res, p') ∧ (res.1 = none ↔ res.2 ≠ none) := by
  obtain ⟨req, hreq⟩ := newRequest_total ip
  rw [GetIPInfo_of_request p ip req hreq]
  cases p.writeErr with
  | some err => exact ⟨_, _, rfl, by simp⟩
  | none => exact ⟨_, _, rfl, statusSwitch_exactly_one _⟩

theorem toUnsigned8_signed8 (b : Byte) : toUnsigned 8 (signed8 b) = b.val := by
  have hb := b.isLt
  unfold toUnsigned signed8
  split_ifs with h
  · norm_num
    omega
  · have hm : ((b.val : Int) - 256) % (2 : Int) ^ 8 = (b.val : Int) := by
      norm_num
      omega
    rw [hm]; simp

theorem GetAddrInfo_of_rejected (ParseIP : String → Option IP) (p : Conn) (sip : String)
    (h : ParseIP sip = none) :
    GetAddrInfo ParseIP p sip =
      some ((none,
        some (GoError.errorf ("Couldn't parse " ++ sip ++ " as an IP address"))), p) := by
  simp only [GetAddrInfo, h]

theorem encodeRequest_of_newRequest (ip : IP) (req : request)
    (h : newRequest ip = some (req, none)) :
    ∃ tag : Byte, (tag = 4 ∨ tag = 6) ∧ req.AddressType = (tag.val : Int) ∧
      req.Address.length = 16 ∧
      encodeRequest req = [0x01, 0x46, 0x30, 0x50, tag] ++ req.Address := by
  obtain ⟨hm, ht, hl⟩ := newRequest_shape ip req h
  rcases ht with ht | ht
  · exact ⟨4, Or.inl rfl, ht, hl, encodeRequest_bytes req 4 hm ht⟩
  · exact ⟨6, Or.inr rfl, ht, hl, encodeRequest_bytes req 6 hm ht⟩

theorem decodeRequest_encodeRequest (ip : IP) (req : request)
    (h : newRequest ip = some (req, none)) :
    decodeRequest (encodeRequest req) = (req.AddressType, req.Address) := by
  obtain ⟨tag, htag, ht, hl, he⟩ := encodeRequest_of_newRequest ip req h
  have h16 : List.take 16 req.Address = req.Address := List.take_of_length_le (by omega)
  rw [he]
  rcases htag with rfl | rfl
  · simp only [decodeRequest, field, ht]
    simp [h16]
    decide
  · simp only [decodeRequest, field, ht]
    simp [h16]
    decide

theorem responseStatusType_String_cases (n : Int) :
    responseStatusType_String n =
      if n = 0 then some "BadQuery"
      else if n = 1 ∨ n = 0x10 then some "OK"
      else if n = 2 ∨ n = 0x20 then some "NoMatch"
      else some ("ResponseStatusType(" ++ formatInt n ++ ")") := by
  by_cases h0 : n = 0
  · subst h0; rfl
  by_cases h1 : n = 1
  · subst h1; rfl
  by_cases h2 : n = 2
  · subst h2; rfl
  by_cases h16 : n = 0x10
  · subst h16; rfl
  by_cases h32 : n = 0x20
  · subst h32; rfl
  have hr : n < 0 ∨ n ≥ 3 := by omega
  simp [responseStatusType_String, _ResponseStatusType_index, h0, h1, h2, h16, h32, hr]

theorem addressType_String_cases (n : Int) :
    addressType_String n =
      if n = 0 ∨ n = 4 then some "IPv4"
      else if n = 1 ∨ n = 6 then some "IPv6"
      else some ("AddressType(" ++ formatInt n ++ ")") := by
  by_cases h0 : n = 0
  · subst h0; rfl
  by_cases h1 : n = 1
  · subst h1; rfl
  by_cases h4 : n = 4
  · subst h4; rfl
  by_cases h6 : n = 6
  · subst h6; rfl
  have hr : n < 0 ∨ n ≥ 2 := by omega
  simp [addressType_String, _AddressType_index, h0, h1, h4, h6, hr]

theorem To4_mapped (a b c d : Byte) :
    To4 [0, 0, 0, 0, 0, 0, 0, 0, 0, 0, 0xff, 0xff, a, b, c, d] = some [a, b, c, d] := by
  simp [To4, isZeros]

/-! ## The claims -/

/-- C1, evaluated on the code: the 232-byte record `wrongMagicRecord` has
status `OK` and a magic field that is not `0x50304602`, and `GetIPInfo` returns
a `Response` and a nil error for it: the magic field is never compared. -/
theorem GetIPInfo_accepts_wrong_magic :
    wrongMagicRecord.length = 232 ∧
    leNat (field wrongMagicRecord 0 4) ≠ 0x50304602 ∧
    (decodeResponse wrongMagicRecord).MagicWord ≠ magicResponse ∧
    ∃ r p', GetIPInfo (peer wrongMagicRecord) [192, 168, 1, 1] = some ((some r, none), p') := by
  refine ⟨rfl, by decide, by decide, ?_⟩
  obtain ⟨req, -, h⟩ := GetIPInfo_record (peer wrongMagicRecord) [192, 168, 1, 1]
    wrongMagicRecord [] rfl (by simp [peer]) rfl
  rw [(statusSwitch_of_status _).2.1 (by decide)] at h
  exact ⟨_, _, h⟩

/-- C2 as stated fails: for `linuxRecord`, whose status is `OK` and whose
`os_name` buffer is "Linux" followed by 27 zero bytes, the decoded `OsName` is
not the 5-byte text "Linux": it has 32 bytes and contains zero bytes. -/
theorem linux_text_keeps_zero_bytes :
    linuxRecord.length = 232 ∧ field linuxRecord 4 4 = [0x10, 0, 0, 0] ∧
    field linuxRecord 40 32 = [76, 105, 110, 117, 120] ++ List.replicate 27 0 ∧
    untilZero (field linuxRecord 40 32) = [76, 105, 110, 117, 120] ∧
    ∃ r p', GetIPInfo (peer linuxRecord) [192, 168, 1, 1] = some ((some r, none), p') ∧
      r.OsName ≠ untilZero (field linuxRecord 40 32) ∧
      r.OsName.length = 32 ∧ (0 : Byte) ∈ r.OsName := by
  refine ⟨rfl, by decide, by decide, by decide, ?_⟩
  obtain ⟨req, -, h⟩ := GetIPInfo_record (peer linuxRecord) [192, 168, 1, 1]
    linuxRecord [] rfl (by simp [peer]) rfl
  rw [(statusSwitch_of_status _).2.1 (by decide)] at h
  exact ⟨_, _, h, by decide, by decide, by decide⟩

/-- C2, amended: for every record with status `OK`, each of the six decoded
texts is its whole 32-byte buffer, zero bytes included; so it always has 32
bytes, and it equals the bytes before the first zero byte exactly when the
buffer holds no zero byte. -/
theorem GetIPInfo_texts_are_whole_buffers (p : Conn) (ip : IP) (rec rest : List Byte)
    (hw : p.writeErr = none) (hin : p.incoming = rec ++ rest) (hlen : rec.length = 232)
    (hst : field rec 4 4 = [0x10, 0, 0, 0]) :
    ∃ r p', GetIPInfo p ip = some ((some r, none), p') ∧
      r.texts = textBuffers rec ∧
      ∀ t ∈ r.texts, t.length = 32 ∧ (t = untilZero t ↔ (0 : Byte) ∉ t) := by
  obtain ⟨req, -, h⟩ := GetIPInfo_record p ip rec rest hw hin hlen
  have hs : (decodeResponse rec).Status = 0x10 :=
    (status_of_bytes rec 0x10 (by decide)).2 (by rw [hst]; rfl)
  rw [(statusSwitch_of_status _).2.1 hs] at h
  refine ⟨_, _, h, rfl, ?_⟩
  intro t ht
  refine ⟨?_, untilZero_eq_self_iff t⟩
  simp only [Response.texts, okResponse, decodeResponse, List.mem_cons, List.mem_singleton,
    List.not_mem_nil, or_false] at ht
  rcases ht with rfl | rfl | rfl | rfl | rfl | rfl <;>
    exact field_length rec _ 32 (by omega)

/-- Witness of `GetIPInfo_texts_are_whole_buffers` at `linuxRecord`. -/
theorem GetIPInfo_texts_are_whole_buffers_witness :
    field linuxRecord 4 4 = [0x10, 0, 0, 0] ∧
    ∃ r p', GetIPInfo (peer linuxRecord) [192, 168, 1, 1] = some ((some r, none), p') ∧
      r.texts = textBuffers linuxRecord ∧
      ∀ t ∈ r.texts, t.length = 32 ∧ (t = untilZero t ↔ (0 : Byte) ∉ t) :=
  ⟨by decide, GetIPInfo_texts_are_whole_buffers (peer linuxRecord) [192, 168, 1, 1]
    linuxRecord [] rfl (by simp [peer]) rfl (by decide)⟩

/-- C3, evaluated on the code: when the write succeeds and the transport
delivers fewer than 232 bytes, `GetIPInfo` returns a nil `Response` and the
error "Bad query", the very pair returned for a record with status `BadQuery`;
the error of the failed read is dropped. -/
theorem GetIPInfo_short_read_is_bad_query (p : Conn) (ip : IP)
    (hw : p.writeErr = none) (hshort : p.incoming.length < 232) :
    ∃ p', GetIPInfo p ip = some ((none, some (GoError.errorf "Bad query")), p') ∧
      ∀ rec : List Byte, field rec 4 4 = [0, 0, 0, 0] →
        statusSwitch (decodeResponse rec) = (none, some (GoError.errorf "Bad query")) := by
  obtain ⟨p', h⟩ := GetIPInfo_short p ip hw hshort
  refine ⟨p', h, ?_⟩
  intro rec hst
  have hs : (decodeResponse rec).Status = ((0 : Nat) : Int) :=
    (status_of_bytes rec 0 (by decide)).2 (by rw [hst]; rfl)
  exact (statusSwitch_of_status _).1 hs

/-- Witness of `GetIPInfo_short_read_is_bad_query`: the peer delivers the first
100 bytes of a record with status `OK` and closes. -/
theorem GetIPInfo_short_read_is_bad_query_witness :
    (peer (linuxRecord.take 100)).incoming.length = 100 ∧
    ∃ p', GetIPInfo (peer (linuxRecord.take 100)) [192, 168, 1, 1] =
        some ((none, some (GoError.errorf "Bad query")), p') ∧
      ∀ rec : List Byte, field rec 4 4 = [0, 0, 0, 0] →
        statusSwitch (decodeResponse rec) = (none, some (GoError.errorf "Bad query")) :=
  ⟨rfl, GetIPInfo_short_read_is_bad_query (peer (linuxRecord.take 100)) [192, 168, 1, 1]
    rfl (by decide)⟩

/-- C4: for every address that has a 4-byte form `To4`, `newRequest` returns a
request with magic `0x50304601`, family tag 4 and a 16-byte buffer holding the
four bytes of that form at offsets 0..3 and zero at offsets 4..15. -/
theorem newRequest_ipv4 (ip tmp : IP) (h : To4 ip = some tmp) :
    tmp.length = 4 ∧
    newRequest ip =
      some ({ MagicWord := 0x50304601, AddressType := 4,
              Address := tmp ++ List.replicate 12 0 }, none) :=
  ⟨To4_length ip tmp h, newRequest_of_To4 ip tmp h⟩

/-- Witness of `newRequest_ipv4` at 192.168.1.1. -/
theorem newRequest_ipv4_witness :
    To4 [192, 168, 1, 1] = some [192, 168, 1, 1] ∧
    newRequest [192, 168, 1, 1] =
      some ({ MagicWord := 0x50304601, AddressType := 4,
              Address := [192, 168, 1, 1] ++ List.replicate 12 0 }, none) :=
  ⟨rfl, (newRequest_ipv4 [192, 168, 1, 1] [192, 168, 1, 1] rfl).2⟩

/-- C5 as stated fails: `mappedAddress` (`::ffff:1.2.3.4`) is a 16-byte address
value, and the request `newRequest` builds for it has family tag 4 and a buffer
that differs from the 16 raw bytes. -/
theorem newRequest_mapped_address_not_ipv6 :
    mappedAddress.length = 16 ∧
    ¬ ∃ req, newRequest mappedAddress = some (req, none) ∧
        req.AddressType = 6 ∧ req.Address = mappedAddress := by
  refine ⟨rfl, ?_⟩
  rintro ⟨req, h, h6, -⟩
  have h4 : newRequest mappedAddress =
      some ({ MagicWord := magicQuery, AddressType := IPv4,
              Address := [1, 2, 3, 4] ++ List.replicate 12 0 }, none) :=
    newRequest_of_To4 mappedAddress [1, 2, 3, 4] rfl
  rw [h4] at h
  cases h
  exact absurd h6 (by decide)

/-- C5, amended: for every 16-byte address value that is not IPv4-mapped (its
first 12 bytes are not ten zero bytes followed by 0xFF 0xFF), `newRequest`
returns a request with magic `0x50304601`, family tag 6 and a buffer equal to
the 16 raw bytes of the address. -/
theorem newRequest_ipv6 (ip : IP) (hlen : ip.length = 16)
    (hmapped : ip.take 12 ≠ v4InV6Prefix) :
    newRequest ip =
      some ({ MagicWord := 0x50304601, AddressType := 6, Address := ip }, none) := by
  rw [newRequest_of_not_To4 ip (To4_eq_none_of ip hlen hmapped), copy_sixteen ip hlen]
  rfl

/-- Witness of `newRequest_ipv6` at `2001:db8::1`. -/
theorem newRequest_ipv6_witness :
    sampleIPv6.length = 16 ∧ sampleIPv6.take 12 ≠ v4InV6Prefix ∧
    newRequest sampleIPv6 =
      some ({ MagicWord := 0x50304601, AddressType := 6, Address := sampleIPv6 }, none) :=
  ⟨rfl, by decide, newRequest_ipv6 sampleIPv6 rfl (by decide)⟩

/-- C6: for every connection and address, `GetIPInfo` writes the encoding of
the request built by `newRequest`, and these are exactly 21 bytes: 0x01, 0x46,
0x30, 0x50 (the magic `0x50304601`, little-endian), one byte holding the
family tag (4 or 6), then the 16 bytes of the address buffer; it is the only
write of the call. -/
theorem GetIPInfo_writes_request (p : Conn) (ip : IP) :
    ∃ req res p' tail, ∃ tag : Byte,
      newRequest ip = some (req, none) ∧ GetIPInfo p ip = some (res, p') ∧
      req.AddressType = (tag.val : Int) ∧ (tag = 4 ∨ tag = 6) ∧
      req.Address.length = 16 ∧
      p'.log = p.log ++ Op.write ([0x01, 0x46, 0x30, 0x50, tag] ++ req.Address) :: tail ∧
      (∀ op ∈ tail, op = Op.read 232) ∧
      ([0x01, 0x46, 0x30, 0x50, tag] ++ req.Address).length = 21 := by
  obtain ⟨req, hreq⟩ := newRequest_total ip
  obtain ⟨hm, ht, hl⟩ := newRequest_shape ip req hreq
  obtain ⟨res, p', tail, hg, hlog, htail⟩ := GetIPInfo_log p ip req hreq
  rcases ht with ht | ht
  · refine ⟨req, res, p', tail, 4, hreq, hg, ht, Or.inl rfl, hl, ?_, htail, by simp [hl]⟩
    rw [hlog, encodeRequest_bytes req 4 hm ht]
  · refine ⟨req, res, p', tail, 6, hreq, hg, ht, Or.inr rfl, hl, ?_, htail, by simp [hl]⟩
    rw [hlog, encodeRequest_bytes req 6 hm ht]

/-- C7: for every 232-byte record whose status field is `NoMatch` (0x20),
whatever its other bytes, `GetIPInfo` returns a nil `Response` and the error
"No match". -/
theorem GetIPInfo_no_match (p : Conn) (ip : IP) (rec rest : List Byte)
    (hw : p.writeErr = none) (hin : p.incoming = rec ++ rest) (hlen : rec.length = 232)
    (hst : field rec 4 4 = [0x20, 0, 0, 0]) :
    ∃ p', GetIPInfo p ip = some ((none, some (GoError.errorf "No match")), p') := by
  obtain ⟨req, -, h⟩ := GetIPInfo_record p ip rec rest hw hin hlen
  have hs : (decodeResponse rec).Status = 0x20 :=
    (status_of_bytes rec 0x20 (by decide)).2 (by rw [hst]; rfl)
  rw [(statusSwitch_of_status _).2.2.1 hs] at h
  exact ⟨_, h⟩

/-- Witness of `GetIPInfo_no_match`. -/
theorem GetIPInfo_no_match_witness :
    field (sampleRecord [0x20, 0, 0, 0] [7, 0]) 4 4 = [0x20, 0, 0, 0] ∧
    ∃ p', GetIPInfo (peer (sampleRecord [0x20, 0, 0, 0] [7, 0])) [192, 168, 1, 1] =
      some ((none, some (GoError.errorf "No match")), p') :=
  ⟨by decide, GetIPInfo_no_match (peer (sampleRecord [0x20, 0, 0, 0] [7, 0])) [192, 168, 1, 1]
    (sampleRecord [0x20, 0, 0, 0] [7, 0]) [] rfl (by simp [peer]) rfl (by decide)⟩

/-- C8: for every 232-byte record whose status field is `BadQuery` (0x00),
`GetIPInfo` returns a nil `Response` and the error "Bad query"; and for no
record with another status (`NoMatch` and the unrecognized ones among them)
does it return that error. -/
theorem GetIPInfo_bad_query (p : Conn) (ip : IP) (rec rest : List Byte)
    (hw : p.writeErr = none) (hin : p.incoming = rec ++ rest) (hlen : rec.length = 232)
    (hst : field rec 4 4 = [0, 0, 0, 0]) :
    (∃ p', GetIPInfo p ip = some ((none, some (GoError.errorf "Bad query")), p')) ∧
    ∀ (q : Conn) (rec2 rest2 : List Byte), q.writeErr = none → q.incoming = rec2 ++ rest2 →
      rec2.length = 232 → leNat (field rec2 4 4) ≠ 0 →
      ∀ res q', GetIPInfo q ip = some (res, q') → res.2 ≠ some (GoError.errorf "Bad query") := by
  constructor
  · obtain ⟨req, -, h⟩ := GetIPInfo_record p ip rec rest hw hin hlen
    have hs : (decodeResponse rec).Status = ((0 : Nat) : Int) :=
      (status_of_bytes rec 0 (by decide)).2 (by rw [hst]; rfl)
    rw [(statusSwitch_of_status _).1 hs] at h
    exact ⟨_, h⟩
  · intro q rec2 rest2 hw2 hin2 hlen2 hne res q' hres
    obtain ⟨req, -, h⟩ := GetIPInfo_record q ip rec2 rest2 hw2 hin2 hlen2
    rw [h] at hres
    cases hres
    have hs : (decodeResponse rec2).Status ≠ BadQuery := fun hc =>
      hne ((status_of_bytes rec2 0 (by decide)).1 hc)
    unfold statusSwitch
    rw [if_neg hs]
    split_ifs <;> simp

/-- Witness of `GetIPInfo_bad_query`. -/
theorem GetIPInfo_bad_query_witness :
    field (sampleRecord [0, 0, 0, 0] [7, 0]) 4 4 = [0, 0, 0, 0] ∧
    ∃ p', GetIPInfo (peer (sampleRecord [0, 0, 0, 0] [7, 0])) [192, 168, 1, 1] =
      some ((none, some (GoError.errorf "Bad query")), p') :=
  ⟨by decide, (GetIPInfo_bad_query (peer (sampleRecord [0, 0, 0, 0] [7, 0])) [192, 168, 1, 1]
    (sampleRecord [0, 0, 0, 0] [7, 0]) [] rfl (by simp [peer]) rfl (by decide)).1⟩

/-- C9: for every 232-byte record whose 32-bit status field is none of 0x00,
0x10 and 0x20, `GetIPInfo` returns a nil `Response` and the error
"Unrecognized response". -/
theorem GetIPInfo_unrecognized (p : Conn) (ip : IP) (rec rest : List Byte)
    (hw : p.writeErr = none) (hin : p.incoming = rec ++ rest) (hlen : rec.length = 232)
    (h0 : leNat (field rec 4 4) ≠ 0x00) (h1 : leNat (field rec 4 4) ≠ 0x10)
    (h2 : leNat (field rec 4 4) ≠ 0x20) :
    ∃ p', GetIPInfo p ip =
      some ((none, some (GoError.errorf "Unrecognized response")), p') := by
  obtain ⟨req, -, h⟩ := GetIPInfo_record p ip rec rest hw hin hlen
  have hs0 : (decodeResponse rec).Status ≠ 0 := fun hc =>
    h0 ((status_of_bytes rec 0 (by decide)).1 hc)
  have hs1 : (decodeResponse rec).Status ≠ 0x10 := fun hc =>
    h1 ((status_of_bytes rec 0x10 (by decide)).1 hc)
  have hs2 : (decodeResponse rec).Status ≠ 0x20 := fun hc =>
    h2 ((status_of_bytes rec 0x20 (by decide)).1 hc)
  rw [(statusSwitch_of_status _).2.2.2 hs0 hs1 hs2] at h
  exact ⟨_, h⟩

/-- Witness of `GetIPInfo_unrecognized`, at the status `0xFFFFFFFF`. -/
theorem GetIPInfo_unrecognized_witness :
    leNat (field (sampleRecord [0xff, 0xff, 0xff, 0xff] [7, 0]) 4 4) = 0xffffffff ∧
    ∃ p', GetIPInfo (peer (sampleRecord [0xff, 0xff, 0xff, 0xff] [7, 0])) [192, 168, 1, 1] =
      some ((none, some (GoError.errorf "Unrecognized response")), p') :=
  ⟨by decide, GetIPInfo_unrecognized (peer (sampleRecord [0xff, 0xff, 0xff, 0xff] [7, 0]))
    [192, 168, 1, 1] (sampleRecord [0xff, 0xff, 0xff, 0xff] [7, 0]) [] rfl (by simp [peer]) rfl
    (by decide) (by decide) (by decide)⟩

/-- C10: for every 232-byte record with status `OK`, the decoded `Distance` is
the two's-complement signed 16-bit value of the two little-endian bytes at
offsets 36 and 37; it lies in -32768..32767, and the bytes 0xFF 0xFF decode to
-1. -/
theorem GetIPInfo_distance (p : Conn) (ip : IP) (rec rest : List Byte)
    (hw : p.writeErr = none) (hin : p.incoming = rec ++ rest) (hlen : rec.length = 232)
    (hst : field rec 4 4 = [0x10, 0, 0, 0]) :
    ∃ r p', ∃ b0 b1 : Byte, GetIPInfo p ip = some ((some r, none), p') ∧
      field rec 36 2 = [b0, b1] ∧
      r.Distance =
        (if b0.val + 256 * b1.val < 32768 then ((b0.val + 256 * b1.val : Nat) : Int)
         else ((b0.val + 256 * b1.val : Nat) : Int) - 65536) ∧
      -32768 ≤ r.Distance ∧ r.Distance ≤ 32767 ∧
      (b0 = 0xff → b1 = 0xff → r.Distance = -1) := by
  obtain ⟨req, -, h⟩ := GetIPInfo_record p ip rec rest hw hin hlen
  have hs : (decodeResponse rec).Status = 0x10 :=
    (status_of_bytes rec 0x10 (by decide)).2 (by rw [hst]; rfl)
  rw [(statusSwitch_of_status _).2.1 hs] at h
  obtain ⟨b0, b1, hb⟩ := list_of_length_two _ (field_length rec 36 2 (by omega))
  have hd : (okResponse (decodeResponse rec)).Distance =
      (if b0.val + 256 * b1.val < 32768 then ((b0.val + 256 * b1.val : Nat) : Int)
       else ((b0.val + 256 * b1.val : Nat) : Int) - 65536) := by
    simp only [okResponse, decodeResponse, hb, toSigned16_pair]
  have h0 := b0.isLt
  have h1 := b1.isLt
  refine ⟨_, _, b0, b1, h, hb, hd, ?_, ?_, ?_⟩
  · rw [hd]; split_ifs <;> omega
  · rw [hd]; split_ifs <;> omega
  · rintro rfl rfl
    rw [hd]; decide

/-- Witness of `GetIPInfo_distance`, at the distance bytes 0xFF 0xFF. -/
theorem GetIPInfo_distance_witness :
    field (sampleRecord [0x10, 0, 0, 0] [0xff, 0xff]) 4 4 = [0x10, 0, 0, 0] ∧
    ∃ r p', ∃ b0 b1 : Byte,
      GetIPInfo (peer (sampleRecord [0x10, 0, 0, 0] [0xff, 0xff])) [192, 168, 1, 1] =
        some ((some r, none), p') ∧
      field (sampleRecord [0x10, 0, 0, 0] [0xff, 0xff]) 36 2 = [b0, b1] ∧
      r.Distance =
        (if b0.val + 256 * b1.val < 32768 then ((b0.val + 256 * b1.val : Nat) : Int)
         else ((b0.val + 256 * b1.val : Nat) : Int) - 65536) ∧
      -32768 ≤ r.Distance ∧ r.Distance ≤ 32767 ∧
      (b0 = 0xff → b1 = 0xff → r.Distance = -1) :=
  ⟨by decide, GetIPInfo_distance (peer (sampleRecord [0x10, 0, 0, 0] [0xff, 0xff]))
    [192, 168, 1, 1] (sampleRecord [0x10, 0, 0, 0] [0xff, 0xff]) [] rfl (by simp [peer]) rfl
    (by decide)⟩

/-- C11 as stated fails: in `okRecord [0, 0, 0, 0x80]` the field `first_seen`
holds the unsigned value 2147483648, and the decoded `FirstSeen` is not the
instant 2147483648 seconds after the epoch: it lies before the epoch. -/
theorem first_seen_before_epoch :
    (okRecord [0, 0, 0, 0x80]).length = 232 ∧
    field (okRecord [0, 0, 0, 0x80]) 4 4 = [0x10, 0, 0, 0] ∧
    leNat (field (okRecord [0, 0, 0, 0x80]) 8 4) = 2147483648 ∧
    ∃ r p', GetIPInfo (peer (okRecord [0, 0, 0, 0x80])) [192, 168, 1, 1] =
        some ((some r, none), p') ∧
      r.FirstSeen ≠ { sec := 2147483648, nsec := 0 } ∧ r.FirstSeen.sec < 0 := by
  refine ⟨rfl, by decide, by decide, ?_⟩
  obtain ⟨p', h⟩ := GetIPInfo_ok (peer (okRecord [0, 0, 0, 0x80])) [192, 168, 1, 1]
    (okRecord [0, 0, 0, 0x80]) [] rfl (by simp [peer]) rfl (by decide)
  exact ⟨_, _, h, by decide, by decide⟩

/-- C11, amended: for every record with status `OK`, each of `FirstSeen`,
`LastSeen`, `LastNAT`, `LastChg` is the instant `s` seconds after the UNIX
epoch, 0 nanoseconds, where `s` is the signed 32-bit reading of the
little-endian wire field: the unsigned value `n` when `n < 2^31`, and
`n - 2^32` otherwise; a zero field decodes to the epoch, and a decoded
timestamp lies before the epoch exactly when `n ≥ 2^31`. -/
theorem GetIPInfo_timestamps (p : Conn) (ip : IP) (rec rest : List Byte)
    (hw : p.writeErr = none) (hin : p.incoming = rec ++ rest) (hlen : rec.length = 232)
    (hst : field rec 4 4 = [0x10, 0, 0, 0]) :
    ∃ r p', GetIPInfo p ip = some ((some r, none), p') ∧
      r.timestamps =
        (timestampFields rec).map (fun n => ({ sec := signed32 n, nsec := 0 } : Time)) ∧
      ∀ n ∈ timestampFields rec,
        (n < 2147483648 → signed32 n = (n : Int)) ∧
        (2147483648 ≤ n → signed32 n = (n : Int) - 4294967296) ∧
        (signed32 n < 0 ↔ 2147483648 ≤ n) ∧
        -2147483648 ≤ signed32 n ∧ signed32 n ≤ 2147483647 := by
  obtain ⟨p', h⟩ := GetIPInfo_ok p ip rec rest hw hin hlen hst
  refine ⟨_, p', h, ?_, ?_⟩
  · simp only [Response.timestamps, okResponse, decodeResponse, timestampFields, List.map,
      Time_Unix_zero, toSigned32_eq_signed32 _ (leNat_field_lt rec _ 4)]
  · intro n hn
    simp only [timestampFields, List.map, List.mem_cons, List.mem_singleton,
      List.not_mem_nil, or_false] at hn
    have hlt : n < 4294967296 := by
      have h4 : (256 : Nat) ^ 4 = 4294967296 := by norm_num
      rcases hn with rfl | rfl | rfl | rfl <;>
        exact h4 ▸ leNat_field_lt rec _ 4
    exact signed32_facts n hlt

/-- Witness of `GetIPInfo_timestamps`, at a record whose `first_seen` is
2147483648 and whose `last_seen` is 1. -/
theorem GetIPInfo_timestamps_witness :
    timestampFields (okRecord [0, 0, 0, 0x80, 1, 0, 0, 0]) = [2147483648, 1, 0, 0] ∧
    ∃ r p', GetIPInfo (peer (okRecord [0, 0, 0, 0x80, 1, 0, 0, 0])) [192, 168, 1, 1] =
        some ((some r, none), p') ∧
      r.timestamps =
        (timestampFields (okRecord [0, 0, 0, 0x80, 1, 0, 0, 0])).map
          (fun n => ({ sec := signed32 n, nsec := 0 } : Time)) ∧
      ∀ n ∈ timestampFields (okRecord [0, 0, 0, 0x80, 1, 0, 0, 0]),
        (n < 2147483648 → signed32 n = (n : Int)) ∧
        (2147483648 ≤ n → signed32 n = (n : Int) - 4294967296) ∧
        (signed32 n < 0 ↔ 2147483648 ≤ n) ∧
        -2147483648 ≤ signed32 n ∧ signed32 n ≤ 2147483647 :=
  ⟨by decide, GetIPInfo_timestamps (peer (okRecord [0, 0, 0, 0x80, 1, 0, 0, 0]))
    [192, 168, 1, 1] (okRecord [0, 0, 0, 0x80, 1, 0, 0, 0]) [] rfl (by simp [peer]) rfl
    (by decide)⟩

/-- C12 as stated fails: in `fullCountRecord` the field `total_conn` holds the
unsigned value 4294967295, and the decoded `TotalConn` is -1. -/
theorem total_conn_negative :
    fullCountRecord.length = 232 ∧
    field fullCountRecord 4 4 = [0x10, 0, 0, 0] ∧
    leNat (field fullCountRecord 16 4) = 4294967295 ∧
    ∃ r p', GetIPInfo (peer fullCountRecord) [192, 168, 1, 1] = some ((some r, none), p') ∧
      r.TotalConn ≠ 4294967295 ∧ r.TotalConn = -1 := by
  refine ⟨rfl, by decide, by decide, ?_⟩
  obtain ⟨p', h⟩ := GetIPInfo_ok (peer fullCountRecord) [192, 168, 1, 1]
    fullCountRecord [] rfl (by simp [peer]) rfl (by decide)
  exact ⟨_, _, h, by decide, by decide⟩

/-- C12, amended: for every record with status `OK`, each of `TotalConn`,
`UptimeMin`, `UpModDays` is the signed 32-bit reading of the little-endian wire
field: the unsigned value `n` when `n < 2^31`, and `n - 2^32` otherwise; so it
lies in -2^31..2^31-1 and is negative exactly when `n ≥ 2^31`. -/
theorem GetIPInfo_counters (p : Conn) (ip : IP) (rec rest : List Byte)
    (hw : p.writeErr = none) (hin : p.incoming = rec ++ rest) (hlen : rec.length = 232)
    (hst : field rec 4 4 = [0x10, 0, 0, 0]) :
    ∃ r p', GetIPInfo p ip = some ((some r, none), p') ∧
      r.counters = (counterFields rec).map signed32 ∧
      ∀ n ∈ counterFields rec,
        (n < 2147483648 → signed32 n = (n : Int)) ∧
        (2147483648 ≤ n → signed32 n = (n : Int) - 4294967296) ∧
        (signed32 n < 0 ↔ 2147483648 ≤ n) ∧
        -2147483648 ≤ signed32 n ∧ signed32 n ≤ 2147483647 := by
  obtain ⟨p', h⟩ := GetIPInfo_ok p ip rec rest hw hin hlen hst
  refine ⟨_, p', h, ?_, ?_⟩
  · simp only [Response.counters, okResponse, decodeResponse, counterFields, List.map,
      toSigned32_eq_signed32 _ (leNat_field_lt rec _ 4)]
  · intro n hn
    simp only [counterFields, List.map, List.mem_cons, List.mem_singleton,
      List.not_mem_nil, or_false] at hn
    have hlt : n < 4294967296 := by
      have h4 : (256 : Nat) ^ 4 = 4294967296 := by norm_num
      rcases hn with rfl | rfl | rfl <;>
        exact h4 ▸ leNat_field_lt rec _ 4
    exact signed32_facts n hlt

/-- Witness of `GetIPInfo_counters`, at a record whose `total_conn` bytes are
FF FF FF FF. -/
theorem GetIPInfo_counters_witness :
    counterFields fullCountRecord = [4294967295, 0, 0] ∧
    ∃ r p', GetIPInfo (peer fullCountRecord) [192, 168, 1, 1] = some ((some r, none), p') ∧
      r.counters = (counterFields fullCountRecord).map signed32 ∧
      ∀ n ∈ counterFields fullCountRecord,
        (n < 2147483648 → signed32 n = (n : Int)) ∧
        (2147483648 ≤ n → signed32 n = (n : Int) - 4294967296) ∧
        (signed32 n < 0 ↔ 2147483648 ≤ n) ∧
        -2147483648 ≤ signed32 n ∧ signed32 n ≤ 2147483647 :=
  ⟨by decide, GetIPInfo_counters (peer fullCountRecord) [192, 168, 1, 1]
    fullCountRecord [] rfl (by simp [peer]) rfl (by decide)⟩

/-- C13 as stated fails: in `signedCodesRecord` the byte `bad_sw` is 200 and the
byte `os_match_quality` is 255; decoding succeeds, and the decoded `BadSw` is
-56 and `OsMatchQuality` is -1, not the wire byte values. -/
theorem bad_sw_not_wire_byte :
    signedCodesRecord.length = 232 ∧
    field signedCodesRecord 4 4 = [0x10, 0, 0, 0] ∧
    field signedCodesRecord 38 2 = [200, 255] ∧
    ∃ r p', GetIPInfo (peer signedCodesRecord) [192, 168, 1, 1] = some ((some r, none), p') ∧
      r.BadSw ≠ 200 ∧ r.BadSw = -56 ∧ r.OsMatchQuality ≠ 255 ∧ r.OsMatchQuality = -1 := by
  refine ⟨rfl, by decide, by decide, ?_⟩
  obtain ⟨p', h⟩ := GetIPInfo_ok (peer signedCodesRecord) [192, 168, 1, 1]
    signedCodesRecord [] rfl (by simp [peer]) rfl (by decide)
  exact ⟨_, _, h, by decide, by decide, by decide, by decide⟩

/-- C13, amended: for every record with status `OK` and every value of the
bytes `bad_sw` and `os_match_quality`, `GetIPInfo` returns a `Response` and a
nil error, and `BadSw` and `OsMatchQuality` are the signed 8-bit readings of
the wire bytes: the byte value `b` when `b < 128` and `b - 256` otherwise, so
the unsigned pattern of each is the wire byte. -/
theorem GetIPInfo_codes (p : Conn) (ip : IP) (rec rest : List Byte)
    (hw : p.writeErr = none) (hin : p.incoming = rec ++ rest) (hlen : rec.length = 232)
    (hst : field rec 4 4 = [0x10, 0, 0, 0]) :
    ∃ r p', ∃ b q : Byte, GetIPInfo p ip = some ((some r, none), p') ∧
      field rec 38 2 = [b, q] ∧
      r.BadSw = signed8 b ∧ r.OsMatchQuality = signed8 q ∧
      (b.val < 128 → r.BadSw = (b.val : Int)) ∧
      (128 ≤ b.val → r.BadSw = (b.val : Int) - 256) ∧
      (q.val < 128 → r.OsMatchQuality = (q.val : Int)) ∧
      (128 ≤ q.val → r.OsMatchQuality = (q.val : Int) - 256) ∧
      toUnsigned 8 r.BadSw = b.val ∧ toUnsigned 8 r.OsMatchQuality = q.val := by
  obtain ⟨p', h⟩ := GetIPInfo_ok p ip rec rest hw hin hlen hst
  obtain ⟨b, hb⟩ := list_of_length_one _ (field_length rec 38 1 (by omega))
  obtain ⟨q, hq⟩ := list_of_length_one _ (field_length rec 39 1 (by omega))
  have hpair : field rec 38 2 = [b, q] := by
    have h1 : field rec 38 2 = field rec 38 1 ++ field rec 39 1 := by
      simp only [field]
      rw [show (39 : Nat) = 38 + 1 from rfl, ← List.drop_drop, ← List.take_add]
    rw [h1, hb, hq]; rfl
  have hB : (okResponse (decodeResponse rec)).BadSw = signed8 b := by
    simp only [okResponse, decodeResponse, hb, toSigned8_eq_signed8]
  have hQ : (okResponse (decodeResponse rec)).OsMatchQuality = signed8 q := by
    simp only [okResponse, decodeResponse, hq, toSigned8_eq_signed8]
  have hb256 := b.isLt
  have hq256 := q.isLt
  refine ⟨_, p', b, q, h, hpair, hB, hQ, ?_, ?_, ?_, ?_, ?_, ?_⟩
  · intro hc; rw [hB, signed8, if_pos hc]
  · intro hc; rw [hB, signed8, if_neg (by omega)]
  · intro hc; rw [hQ, signed8, if_pos hc]
  · intro hc; rw [hQ, signed8, if_neg (by omega)]
  · rw [hB]; exact toUnsigned8_signed8 b
  · rw [hQ]; exact toUnsigned8_signed8 q

/-- Witness of `GetIPInfo_codes`, at the bytes 200 and 255. -/
theorem GetIPInfo_codes_witness :
    field signedCodesRecord 4 4 = [0x10, 0, 0, 0] ∧
    ∃ r p', ∃ b q : Byte,
      GetIPInfo (peer signedCodesRecord) [192, 168, 1, 1] = some ((some r, none), p') ∧
      field signedCodesRecord 38 2 = [b, q] ∧
      r.BadSw = signed8 b ∧ r.OsMatchQuality = signed8 q ∧
      (b.val < 128 → r.BadSw = (b.val : Int)) ∧
      (128 ≤ b.val → r.BadSw = (b.val : Int) - 256) ∧
      (q.val < 128 → r.OsMatchQuality = (q.val : Int)) ∧
      (128 ≤ q.val → r.OsMatchQuality = (q.val : Int) - 256) ∧
      toUnsigned 8 r.BadSw = b.val ∧ toUnsigned 8 r.OsMatchQuality = q.val :=
  ⟨by decide, GetIPInfo_codes (peer signedCodesRecord) [192, 168, 1, 1]
    signedCodesRecord [] rfl (by simp [peer]) rfl (by decide)⟩

/-- C14: when the parser rejects the text, `GetAddrInfo` returns a nil
`Response` and a non-nil error and leaves the connection as it was, log
included (no write, no read); and every call of `GetAddrInfo` and of
`GetIPInfo` returns, with exactly one of the `Response` and the error
non-nil. -/
theorem GetAddrInfo_nil_on_error (ParseIP : String → Option IP) (p : Conn) :
    (∀ sip, ParseIP sip = none →
      ∃ e, GetAddrInfo ParseIP p sip = some ((none, some e), p)) ∧
    (∀ sip, ∃ res p', GetAddrInfo ParseIP p sip = some (res, p') ∧
      (res.1 = none ↔ res.2 ≠ none)) ∧
    (∀ ip, ∃ res p', GetIPInfo p ip = some (res, p') ∧ (res.1 = none ↔ res.2 ≠ none)) := by
  refine ⟨?_, ?_, ?_⟩
  · intro sip h
    exact ⟨_, GetAddrInfo_of_rejected ParseIP p sip h⟩
  · intro sip
    cases h : ParseIP sip with
    | none => exact ⟨_, _, GetAddrInfo_of_rejected ParseIP p sip h, by simp⟩
    | some ip =>
      obtain ⟨res, p', hg, hone⟩ := GetIPInfo_exactly_one p ip
      refine ⟨res, p', ?_, hone⟩
      simp only [GetAddrInfo, h, hg]
  · intro ip
    exact GetIPInfo_exactly_one p ip

/-- An instance of `GetAddrInfo_nil_on_error`: a text the parser rejects, on a
connection with three bytes pending. -/
theorem GetAddrInfo_nil_on_error_witness :
    sampleParseIP "bogus" = none ∧
    ∃ e, GetAddrInfo sampleParseIP (peer [1, 2, 3]) "bogus" =
      some ((none, some e), peer [1, 2, 3]) :=
  ⟨by decide, (GetAddrInfo_nil_on_error sampleParseIP (peer [1, 2, 3])).1 "bogus" (by decide)⟩

/-- C15: for every request built by `newRequest`, the inverse `decodeRequest`
applied to the 21 encoded bytes returns the family tag and the 16-byte address
buffer of the request; so two such requests with the same encoding have the
same family tag and the same buffer. -/
theorem request_round_trip (ip : IP) (req : request) (h : newRequest ip = some (req, none)) :
    (encodeRequest req).length = 21 ∧
    decodeRequest (encodeRequest req) = (req.AddressType, req.Address) ∧
    ∀ ip2 req2, newRequest ip2 = some (req2, none) →
      encodeRequest req = encodeRequest req2 →
      req.AddressType = req2.AddressType ∧ req.Address = req2.Address := by
  have hd := decodeRequest_encodeRequest ip req h
  refine ⟨?_, hd, ?_⟩
  · obtain ⟨tag, -, -, hl, he⟩ := encodeRequest_of_newRequest ip req h
    rw [he]; simp [hl]
  · intro ip2 req2 h2 heq
    have hd2 := decodeRequest_encodeRequest ip2 req2 h2
    rw [← heq, hd] at hd2
    exact ⟨congrArg Prod.fst hd2, congrArg Prod.snd hd2⟩

/-- Witness of `request_round_trip`, at the request of `2001:db8::1`. -/
theorem request_round_trip_witness :
    newRequest sampleIPv6 =
      some ({ MagicWord := 0x50304601, AddressType := 6, Address := sampleIPv6 }, none) ∧
    decodeRequest
        (encodeRequest { MagicWord := 0x50304601, AddressType := 6, Address := sampleIPv6 }) =
      (6, sampleIPv6) :=
  ⟨rfl, (request_round_trip sampleIPv6
    { MagicWord := 0x50304601, AddressType := 6, Address := sampleIPv6 } rfl).2.1⟩

/-- C16: every call of `GetIPInfo` first writes the 21 bytes of the encoded
request; when the write succeeds the call adds to the log exactly that write
followed by one read of 232 bytes, and when the write fails it adds the write
only and returns a nil `Response` with the error of the write. -/
theorem GetIPInfo_write_then_read (p : Conn) (ip : IP) :
    ∃ req, newRequest ip = some (req, none) ∧ (encodeRequest req).length = 21 ∧
      (p.writeErr = none → ∃ res p', GetIPInfo p ip = some (res, p') ∧
        p'.log = p.log ++ [Op.write (encodeRequest req), Op.read 232]) ∧
      (∀ err, p.writeErr = some err → ∃ p', GetIPInfo p ip = some ((none, some err), p') ∧
        p'.log = p.log ++ [Op.write (encodeRequest req)]) := by
  obtain ⟨req, hreq⟩ := newRequest_total ip
  obtain ⟨tag, -, -, hl, he⟩ := encodeRequest_of_newRequest ip req hreq
  refine ⟨req, hreq, by rw [he]; simp [hl], ?_, ?_⟩
  · intro hw
    rw [GetIPInfo_of_request p ip req hreq, hw]
    exact ⟨_, _, rfl, by simp [binaryRead_log]⟩
  · intro err hw
    rw [GetIPInfo_of_request p ip req hreq, hw]
    exact ⟨_, rfl, rfl⟩

/-- C17, evaluated on the code: `responseStatusType.String` never indexes out of
range and renders 0x00, 0x10, 0x20 as "BadQuery", "OK", "NoMatch", but it also
renders the value 1 as "OK" and the value 2 as "NoMatch"; the numeric fallback
is returned for every value other than 0, 1, 2, 0x10 and 0x20. -/
theorem responseStatusType_String_values :
    responseStatusType_String 1 = some "OK" ∧
    responseStatusType_String 2 = some "NoMatch" ∧
    responseStatusType_String 0x00 = some "BadQuery" ∧
    responseStatusType_String 0x10 = some "OK" ∧
    responseStatusType_String 0x20 = some "NoMatch" ∧
    responseStatusType_String 3 = some "ResponseStatusType(3)" ∧
    (∀ n : Int, ∃ s, responseStatusType_String n = some s) ∧
    (∀ n : Int, n ≠ 0 → n ≠ 1 → n ≠ 2 → n ≠ 0x10 → n ≠ 0x20 →
      responseStatusType_String n = some ("ResponseStatusType(" ++ formatInt n ++ ")")) := by
  refine ⟨rfl, rfl, rfl, rfl, rfl, by decide, ?_, ?_⟩
  · intro n
    rw [responseStatusType_String_cases]
    split_ifs <;> exact ⟨_, rfl⟩
  · intro n h0 h1 h2 h16 h32
    rw [responseStatusType_String_cases]
    simp [h0, h1, h2, h16, h32]

/-- C18: for every address value, of any length, `newRequest` returns a request
and a nil error without a panic; the buffer has exactly 16 bytes: the bytes
taken from the address (the 4-byte form when it exists, else the first 16
bytes of the value at most) followed by zero bytes. -/
theorem newRequest_is_total (ip : IP) :
    ∃ req filled, newRequest ip = some (req, none) ∧ req.Address.length = 16 ∧
      filled.length ≤ 16 ∧
      req.Address = filled ++ List.replicate (16 - filled.length) 0 ∧
      (To4 ip = some filled ∨ (To4 ip = none ∧ filled = ip.take 16)) := by
  cases h : To4 ip with
  | some tmp =>
    have h4 := To4_length ip tmp h
    refine ⟨_, tmp, newRequest_of_To4 ip tmp h, by simp [h4], by omega, ?_, Or.inl rfl⟩
    simp [h4]
  | none =>
    refine ⟨_, ip.take 16, newRequest_of_not_To4 ip h, by simp [copy_length], ?_, ?_,
      Or.inr ⟨rfl, rfl⟩⟩
    · simp [List.length_take]
    · simp only [copy, List.length_replicate, List.drop_replicate, List.length_take]
      rcases Nat.le_total 16 ip.length with hle | hle
      · simp [Nat.min_eq_left hle]
      · rw [Nat.min_eq_right hle, List.take_of_length_le hle, List.take_length]

/-- C19: for every `a.b.c.d`, `newRequest` builds the same request from the
4-byte form and from the 16-byte IPv4-mapped form (ten zero bytes, 0xFF, 0xFF,
a, b, c, d): family tag 4 and the buffer a, b, c, d followed by 12 zero bytes;
so both have the same encoding. -/
theorem newRequest_mapped_same (a b c d : Byte) :
    newRequest [a, b, c, d] =
      some ({ MagicWord := 0x50304601, AddressType := 4,
              Address := [a, b, c, d] ++ List.replicate 12 0 }, none) ∧
    newRequest [0, 0, 0, 0, 0, 0, 0, 0, 0, 0, 0xff, 0xff, a, b, c, d] =
      newRequest [a, b, c, d] ∧
    (newRequest [0, 0, 0, 0, 0, 0, 0, 0, 0, 0, 0xff, 0xff, a, b, c, d]).map
        (fun r => encodeRequest r.1) =
      some [0x01, 0x46, 0x30, 0x50, 4, a, b, c, d, 0, 0, 0, 0, 0, 0, 0, 0, 0, 0, 0, 0] := by
  have h4 : newRequest [a, b, c, d] = _ := newRequest_of_To4 [a, b, c, d] [a, b, c, d] rfl
  have h16 : newRequest [0, 0, 0, 0, 0, 0, 0, 0, 0, 0, 0xff, 0xff, a, b, c, d] = _ :=
    newRequest_of_To4 _ [a, b, c, d] (To4_mapped a b c d)
  refine ⟨h4, by rw [h4, h16], ?_⟩
  rw [h16]
  simp only [Option.map]
  rw [encodeRequest_bytes _ 4 rfl rfl]
  rfl

/-- C20, evaluated on the code: `addressType.String` renders 4 as "IPv4" and 6 as
"IPv6", but it also renders the value 0 as "IPv4" and the value 1 as "IPv6", so
distinct values render as the same text; the numeric fallback is returned for
every value other than 0, 1, 4 and 6. -/
theorem addressType_String_values :
    addressType_String 0 = some "IPv4" ∧ addressType_String 4 = some "IPv4" ∧
    addressType_String 1 = some "IPv6" ∧ addressType_String 6 = some "IPv6" ∧
    addressType_String 0 = addressType_String 4 ∧
    addressType_String 5 = some "AddressType(5)" ∧
    (∀ n : Int, ∃ s, addressType_String n = some s) ∧
    (∀ n : Int, n ≠ 0 → n ≠ 1 → n ≠ 4 → n ≠ 6 →
      addressType_String n = some ("AddressType(" ++ formatInt n ++ ")")) := by
  refine ⟨rfl, rfl, rfl, rfl, rfl, by decide, ?_, ?_⟩
  · intro n
    rw [addressType_String_cases]
    split_ifs <;> exact ⟨_, rfl⟩
  · intro n h0 h1 h4 h6
    rw [addressType_String_cases]
    simp [h0, h1, h4, h6]

end P0f
